import Mathlib

/-!
# Verification of the hello-world counter program

Shallow embedding of the two source files of the repository
(`src/program-rust/src/instruction.rs` and `src/program-rust/src/lib.rs`):
an instruction decoder (`HelloInstruction.unpack`) and a state processor
(`process_instruction`) that validates account ownership, deserializes a
4-byte little-endian `u32` counter record, applies the decoded command, and
re-serializes the record in place.

Bytes are modelled as `Nat` (the Rust `u8` values lie in `0..256`); `u32`
values are `Nat` with explicit `2^32` bounds where overflow matters.
`Pubkey` is modelled as an opaque identity `Nat`, compared only for equality.
The Rust panic raised by checked `u32` arithmetic (demonstrated by the
repository's own `test_crash` test, which asserts that `Decrement` on a zero
counter aborts the call) is modelled as the distinct outcome
`ProgramError.ArithmeticFault`.
-/

/-- The error outcomes of one call, mirroring `solana_program::ProgramError`
variants used by the source plus the arithmetic-abort outcome:
`IncorrectProgramId` is the spec's `IncorrectOwner`, `BorshIoError` is the
spec's `MalformedRecord` (borsh deserialization/serialization failure), and
`ArithmeticFault` models the fatal unsigned over/underflow abort. -/
inductive ProgramError where
  | InvalidInstructionData : ProgramError
  | IncorrectProgramId : ProgramError
  | NotEnoughAccountKeys : ProgramError
  | BorshIoError : ProgramError
  | ArithmeticFault : ProgramError
deriving DecidableEq, Repr

/-- The decoded command, from `instruction.rs`:
`Increment`, `Decrement`, or `Set(u32)`. -/
inductive HelloInstruction where
  | Increment : HelloInstruction
  | Decrement : HelloInstruction
  | Set : Nat → HelloInstruction
deriving DecidableEq, Repr

/-- `u32::from_le_bytes([b0,b1,b2,b3])`: little-endian, least-significant
byte first. -/
def u32FromLeBytes (b0 b1 b2 b3 : Nat) : Nat :=
  b0 + 256 * b1 + 65536 * b2 + 16777216 * b3

/-- `u32::to_le_bytes(v)`: the 4-byte little-endian encoding of `v`. -/
def u32ToLeBytes (v : Nat) : List Nat :=
  [v % 256, v / 256 % 256, v / 256 / 256 % 256, v / 256 / 256 / 256 % 256]

/-- `HelloInstruction::unpack` from `instruction.rs`: `split_first` fails on
an empty buffer with `InvalidInstructionData`; tag `0` is `Increment`, tag
`1` is `Decrement`, tag `2` requires the rest to be exactly 4 bytes and
reads them as a little-endian `u32`; any other tag fails. -/
def HelloInstruction.unpack : List Nat → Except ProgramError HelloInstruction
  | [] => .error .InvalidInstructionData
  | tag :: rest =>
    match tag with
    | 0 => .ok .Increment
    | 1 => .ok .Decrement
    | 2 =>
      match rest with
      | [b0, b1, b2, b3] => .ok (.Set (u32FromLeBytes b0 b1 b2 b3))
      | _ => .error .InvalidInstructionData
    | _ => .error .InvalidInstructionData

/-- The persisted state from `lib.rs`: a single `u32` counter. -/
structure GreetingAccount where
  counter : Nat
deriving DecidableEq, Repr

/-- `GreetingAccount::try_from_slice` (borsh): reads one little-endian `u32`
and requires the whole slice to be consumed, so exactly 4 bytes; anything
else is a borsh IO error. -/
def GreetingAccount.try_from_slice : List Nat → Except ProgramError GreetingAccount
  | [b0, b1, b2, b3] => .ok ⟨u32FromLeBytes b0 b1 b2 b3⟩
  | _ => .error .BorshIoError

/-- `greeting_account.serialize(&mut &mut data[..])` (borsh into a slice
writer): writes the 4 little-endian counter bytes at the front of the
buffer, failing if the buffer is shorter than 4 bytes. -/
def GreetingAccount.serializeInto (g : GreetingAccount) (data : List Nat) :
    Except ProgramError (List Nat) :=
  if data.length < 4 then .error .BorshIoError
  else .ok (u32ToLeBytes g.counter ++ data.drop 4)

/-- One account as seen by the processor: its owner identity and its mutable
byte buffer (`AccountInfo` fields used by the source). -/
structure AccountInfo where
  owner : Nat
  data : List Nat
deriving DecidableEq, Repr

/-- The `match instruction` body of `process_instruction`: checked `u32`
arithmetic (`counter += 1`, `counter -= 1`, `counter = val`), where unsigned
over/underflow aborts the call with `ArithmeticFault`. -/
def applyInstruction : HelloInstruction → Nat → Except ProgramError Nat
  | .Increment, c => if c + 1 < 2 ^ 32 then .ok (c + 1) else .error .ArithmeticFault
  | .Decrement, c => if c = 0 then .error .ArithmeticFault else .ok (c - 1)
  | .Set v, _ => .ok v

/-- `process_instruction` from `lib.rs`, as a state-passing function: the
result of the call together with the account list after the call (Rust
mutates the first account's buffer in place on the success path only).
Steps, in source order: decode the instruction; take the first account
(`next_account_info` fails with `NotEnoughAccountKeys` on an empty list);
check `account.owner == program_id` (else `IncorrectProgramId`);
deserialize the record; apply the command; re-serialize into the buffer. -/
def process_instruction (program_id : Nat) (accounts : List AccountInfo)
    (instruction_data : List Nat) :
    Except ProgramError Unit × List AccountInfo :=
  match HelloInstruction.unpack instruction_data with
  | .error e => (.error e, accounts)
  | .ok instruction =>
    match accounts with
    | [] => (.error .NotEnoughAccountKeys, accounts)
    | account :: restAccounts =>
      if account.owner ≠ program_id then
        (.error .IncorrectProgramId, accounts)
      else
        match GreetingAccount.try_from_slice account.data with
        | .error e => (.error e, accounts)
        | .ok greeting_account =>
          match applyInstruction instruction greeting_account.counter with
          | .error e => (.error e, accounts)
          | .ok newCounter =>
            match GreetingAccount.serializeInto ⟨newCounter⟩ account.data with
            | .error e => (.error e, accounts)
            | .ok newData =>
              (.ok (), { account with data := newData } :: restAccounts)

/-- The documented wire format of a command (spec §6), used to state the
decode round-trip: one tag byte, plus the 4-byte little-endian payload only
for `Set`. -/
def packInstruction : HelloInstruction → List Nat
  | .Increment => [0]
  | .Decrement => [1]
  | .Set v => 2 :: u32ToLeBytes v

/-- A command is representable on the wire when its `Set` payload fits in an
unsigned 32-bit integer. -/
def instrValid : HelloInstruction → Prop
  | .Set v => v < 2 ^ 32
  | _ => True

/-- The claim C2 failure condition, stated from the spec's words: the buffer
is empty, or its first byte is not one of 0, 1, 2, or the tag is 2 and the
remaining payload is not exactly 4 bytes long. -/
def specDecodeFails : List Nat → Prop
  | [] => True
  | tag :: rest => (tag ≠ 0 ∧ tag ≠ 1 ∧ tag ≠ 2) ∨ (tag = 2 ∧ rest.length ≠ 4)

/-- Round-trip of the little-endian codec: re-encoding a decoded `u32` gives
back the original 4 bytes, provided each byte is in range. -/
theorem u32ToLeBytes_u32FromLeBytes (b0 b1 b2 b3 : Nat)
    (h0 : b0 < 256) (h1 : b1 < 256) (h2 : b2 < 256) (h3 : b3 < 256) :
    u32ToLeBytes (u32FromLeBytes b0 b1 b2 b3) = [b0, b1, b2, b3] := by
  simp only [u32ToLeBytes, u32FromLeBytes, List.cons.injEq, and_true]
  refine ⟨?_, ?_, ?_, ?_⟩ <;> omega

/-- Round-trip of the little-endian codec the other way: decoding the
encoding of a value below `2^32` gives back the value. -/
theorem u32FromLeBytes_u32ToLeBytes (v : Nat) (h : v < 2 ^ 32) :
    u32FromLeBytes (v % 256) (v / 256 % 256) (v / 256 / 256 % 256)
      (v / 256 / 256 / 256 % 256) = v := by
  simp only [u32FromLeBytes]
  omega

example : HelloInstruction.unpack [2, 100, 0, 0, 0] = .ok (.Set 100) := rfl
example : HelloInstruction.unpack [] = .error .InvalidInstructionData := rfl
example : HelloInstruction.unpack [2, 1, 2] = .error .InvalidInstructionData := rfl
example : (process_instruction 5 [⟨5, [0, 0, 0, 0]⟩] [2, 100, 0, 0, 0]) =
    (.ok (), [⟨5, [100, 0, 0, 0]⟩]) := rfl
example : (process_instruction 5 [⟨5, [0, 0, 0, 0]⟩] [1, 9, 9]) =
    (.error .ArithmeticFault, [⟨5, [0, 0, 0, 0]⟩]) := rfl
example : (process_instruction 5 [⟨7, [0, 0, 0, 0]⟩] [0]) =
    (.error .IncorrectProgramId, [⟨7, [0, 0, 0, 0]⟩]) := rfl

/-- C1: for every instruction buffer that decodes successfully and every
account-buffer contents (including malformed contents), if the account's
owner identity differs from the program identity then the call returns the
incorrect-owner failure (`IncorrectProgramId` in the source) and the account
buffer is left byte-for-byte unmodified. -/
theorem process_wrong_owner_incorrect_owner (program_id owner : Nat)
    (data : List Nat) (restAccounts : List AccountInfo)
    (instruction_data : List Nat) (instr : HelloInstruction)
    (hdec : HelloInstruction.unpack instruction_data = .ok instr)
    (hown : owner ≠ program_id) :
    process_instruction program_id (⟨owner, data⟩ :: restAccounts) instruction_data =
      (.error .IncorrectProgramId, ⟨owner, data⟩ :: restAccounts) := by
  simp [process_instruction, hdec, hown]

/-- Witness for C1 at a concrete input: owner 1, program identity 0,
malformed 1-byte account buffer, `Increment` instruction. -/
theorem process_wrong_owner_incorrect_owner_witness :
    process_instruction 0 [⟨1, [9]⟩] [0] = (.error .IncorrectProgramId, [⟨1, [9]⟩]) :=
  process_wrong_owner_incorrect_owner 0 1 [9] [] [0] .Increment rfl (by decide)

/-- C2: decode fails, and fails with `InvalidInstructionData`, if and only
if the buffer is empty, or its first byte is not one of 0, 1, 2, or the tag
is 2 and the remaining payload is not exactly 4 bytes long; in all other
cases decode succeeds. -/
theorem unpack_fails_iff_invalid (buf : List Nat) :
    (HelloInstruction.unpack buf = .error .InvalidInstructionData ↔ specDecodeFails buf) ∧
    (¬ specDecodeFails buf → ∃ i, HelloInstruction.unpack buf = .ok i) := by
  rcases buf with _ | ⟨tag, rest⟩
  · simp [HelloInstruction.unpack, specDecodeFails]
  · rcases tag with _ | _ | _ | t
    · simp [HelloInstruction.unpack, specDecodeFails]
    · simp [HelloInstruction.unpack, specDecodeFails]
    · rcases rest with _ | ⟨a, _ | ⟨b, _ | ⟨c, _ | ⟨d, _ | ⟨e, tl⟩⟩⟩⟩⟩ <;>
        simp [HelloInstruction.unpack, specDecodeFails]
    · simp [HelloInstruction.unpack, specDecodeFails]

/-- Witness for C2 at a concrete input: the buffer `[0]` does not meet the
failure condition, and decode indeed succeeds on it. -/
theorem unpack_fails_iff_invalid_witness :
    ∃ i, HelloInstruction.unpack [0] = .ok i :=
  (unpack_fails_iff_invalid [0]).2 (by simp [specDecodeFails])

/-- C3: for a record holding counter 0 (bytes `[0,0,0,0]`) owned by the
program, processing `Decrement` aborts the call with the arithmetic fault
rather than wrapping or saturating, and the persisted record still holds
counter 0 afterwards. -/
theorem process_decrement_at_zero_aborts (program_id : Nat)
    (restAccounts : List AccountInfo) (rest : List Nat) :
    process_instruction program_id (⟨program_id, [0, 0, 0, 0]⟩ :: restAccounts)
        (1 :: rest) =
      (.error .ArithmeticFault, ⟨program_id, [0, 0, 0, 0]⟩ :: restAccounts) := by
  simp [process_instruction, HelloInstruction.unpack, GreetingAccount.try_from_slice,
    applyInstruction, u32FromLeBytes]

/-- C4: for every input, whenever the call returns any failure, the account
list after the call equals the account list before the call — there is no
partial write. -/
theorem process_failure_leaves_buffer (program_id : Nat)
    (accounts : List AccountInfo) (instruction_data : List Nat) (e : ProgramError)
    (h : (process_instruction program_id accounts instruction_data).1 = .error e) :
    (process_instruction program_id accounts instruction_data).2 = accounts := by
  unfold process_instruction at h ⊢
  repeat' split at h <;> try simp_all

/-- Witness for C4 at a concrete input: an empty instruction buffer fails
decoding, and the account list is unchanged. -/
theorem process_failure_leaves_buffer_witness :
    (process_instruction 0 [⟨0, [0, 0, 0, 0]⟩] []).2 = [⟨0, [0, 0, 0, 0]⟩] :=
  process_failure_leaves_buffer 0 [⟨0, [0, 0, 0, 0]⟩] [] .InvalidInstructionData rfl

/-- C5: on decode success the result is determined by the tag: `[0] ++ rest`
decodes to `Increment` and `[1] ++ rest` to `Decrement` for every suffix
(trailing bytes ignored), and `[2,b0,b1,b2,b3]` decodes to `Set` of the
little-endian value `b0 + 256*b1 + 65536*b2 + 16777216*b3`. -/
theorem unpack_success_values :
    (∀ rest : List Nat, HelloInstruction.unpack (0 :: rest) = .ok .Increment) ∧
    (∀ rest : List Nat, HelloInstruction.unpack (1 :: rest) = .ok .Decrement) ∧
    (∀ b0 b1 b2 b3 : Nat, HelloInstruction.unpack [2, b0, b1, b2, b3] =
      .ok (.Set (b0 + 256 * b1 + 65536 * b2 + 16777216 * b3))) := by
  refine ⟨fun rest => rfl, fun rest => rfl, fun b0 b1 b2 b3 => ?_⟩
  simp [HelloInstruction.unpack, u32FromLeBytes]

/-- C6: starting from a well-formed owned record with counter 0, processing
`Set(100)` (bytes `[2,100,0,0,0]`) succeeds and leaves counter 100;
`Increment` on that result succeeds and leaves counter 101; `Decrement` on
that result succeeds and leaves counter 100 — each re-serialized as 4
little-endian bytes. -/
theorem process_scenario_chain (program_id : Nat) (r1 r2 : List Nat) :
    process_instruction program_id [⟨program_id, [0, 0, 0, 0]⟩] [2, 100, 0, 0, 0] =
      (.ok (), [⟨program_id, [100, 0, 0, 0]⟩]) ∧
    process_instruction program_id [⟨program_id, [100, 0, 0, 0]⟩] (0 :: r1) =
      (.ok (), [⟨program_id, [101, 0, 0, 0]⟩]) ∧
    process_instruction program_id [⟨program_id, [101, 0, 0, 0]⟩] (1 :: r2) =
      (.ok (), [⟨program_id, [100, 0, 0, 0]⟩]) := by
  refine ⟨?_, ?_, ?_⟩ <;>
    simp [process_instruction, HelloInstruction.unpack, GreetingAccount.try_from_slice,
      GreetingAccount.serializeInto, applyInstruction, u32FromLeBytes, u32ToLeBytes]

/-- C7: for every command whose `Set` payload fits in 32 bits, decoding the
byte buffer produced by encoding it in the documented wire format succeeds
and yields the identical command. -/
theorem unpack_packInstruction_roundtrip (i : HelloInstruction) (h : instrValid i) :
    HelloInstruction.unpack (packInstruction i) = .ok i := by
  cases i with
  | Increment => rfl
  | Decrement => rfl
  | Set v =>
    simp only [instrValid] at h
    simp only [packInstruction, u32ToLeBytes, HelloInstruction.unpack, Except.ok.injEq,
      HelloInstruction.Set.injEq, u32FromLeBytes]
    omega

/-- Witness for C7 at a concrete input: the command `Set 100`. -/
theorem unpack_packInstruction_roundtrip_witness :
    HelloInstruction.unpack (packInstruction (.Set 100)) = .ok (.Set 100) :=
  unpack_packInstruction_roundtrip (.Set 100) (by show (100 : Nat) < 2 ^ 32; decide)

/-- C8: for every 32-bit value encoded by bytes `[c0,c1,c2,c3]` and every
well-formed owned record, processing `Set` once succeeds and writes the
value's 4 little-endian bytes, and processing it a second time succeeds and
yields the identical final account buffer — `Set` is idempotent. -/
theorem process_set_idempotent (program_id : Nat) (restAccounts : List AccountInfo)
    (b0 b1 b2 b3 c0 c1 c2 c3 : Nat)
    (h0 : c0 < 256) (h1 : c1 < 256) (h2 : c2 < 256) (h3 : c3 < 256) :
    process_instruction program_id (⟨program_id, [b0, b1, b2, b3]⟩ :: restAccounts)
        [2, c0, c1, c2, c3] =
      (.ok (), ⟨program_id, [c0, c1, c2, c3]⟩ :: restAccounts) ∧
    process_instruction program_id (⟨program_id, [c0, c1, c2, c3]⟩ :: restAccounts)
        [2, c0, c1, c2, c3] =
      (.ok (), ⟨program_id, [c0, c1, c2, c3]⟩ :: restAccounts) := by
  have hle := u32ToLeBytes_u32FromLeBytes c0 c1 c2 c3 h0 h1 h2 h3
  refine ⟨?_, ?_⟩ <;>
    simp [process_instruction, HelloInstruction.unpack, GreetingAccount.try_from_slice,
      GreetingAccount.serializeInto, applyInstruction, hle]

/-- Witness for C8 at a concrete input: setting the counter to 7 twice. -/
theorem process_set_idempotent_witness :
    process_instruction 0 [⟨0, [0, 0, 0, 0]⟩] [2, 7, 0, 0, 0] =
      (.ok (), [⟨0, [7, 0, 0, 0]⟩]) ∧
    process_instruction 0 [⟨0, [7, 0, 0, 0]⟩] [2, 7, 0, 0, 0] =
      (.ok (), [⟨0, [7, 0, 0, 0]⟩]) :=
  process_set_idempotent 0 [] 0 0 0 0 7 0 0 0 (by decide) (by decide) (by decide) (by decide)

/-- C9: for a record holding the maximum `u32` value 4294967295 (bytes
`[255,255,255,255]`) owned by the program, processing `Increment` aborts the
call with the arithmetic fault — mirroring the `Decrement` underflow abort —
and the account buffer is left unmodified; the counter does not wrap to 0. -/
theorem process_increment_at_max_aborts (program_id : Nat)
    (restAccounts : List AccountInfo) (rest : List Nat) :
    process_instruction program_id (⟨program_id, [255, 255, 255, 255]⟩ :: restAccounts)
        (0 :: rest) =
      (.error .ArithmeticFault, ⟨program_id, [255, 255, 255, 255]⟩ :: restAccounts) := by
  simp [process_instruction, HelloInstruction.unpack, GreetingAccount.try_from_slice,
    applyInstruction, u32FromLeBytes]

/-- C10: with an empty account list the call fails and touches no buffer
(the account list is returned unchanged); decoding still happens first, so a
malformed instruction yields `InvalidInstructionData` even with an empty
account list, while a well-formed one yields `NotEnoughAccountKeys`. -/
theorem process_empty_accounts (program_id : Nat) (instruction_data : List Nat) :
    (process_instruction program_id [] instruction_data).2 = [] ∧
    (HelloInstruction.unpack instruction_data = .error .InvalidInstructionData →
      (process_instruction program_id [] instruction_data).1 =
        .error .InvalidInstructionData) ∧
    (∀ i, HelloInstruction.unpack instruction_data = .ok i →
      (process_instruction program_id [] instruction_data).1 =
        .error .NotEnoughAccountKeys) := by
  refine ⟨?_, fun hdec => ?_, fun i hdec => ?_⟩
  · unfold process_instruction
    repeat' split <;> rfl
  · simp [process_instruction, hdec]
  · simp [process_instruction, hdec]

/-- Witness for C10 at concrete inputs: the empty instruction buffer fails
decoding, and the well-formed buffer `[0]` fails for lack of accounts. -/
theorem process_empty_accounts_witness :
    (process_instruction 0 [] []).1 = .error .InvalidInstructionData ∧
    (process_instruction 0 [] [0]).1 = .error .NotEnoughAccountKeys :=
  ⟨(process_empty_accounts 0 []).2.1 rfl, (process_empty_accounts 0 [0]).2.2 .Increment rfl⟩
